import Mathlib

/-!
Verification of `src/sdk/pynni/nni/nas/pytorch/mutator.py` (class `Mutator`).

Shallow embedding decisions:
* A torch tensor is modelled as a 2-D rational matrix `Tensor := List (List ℚ)`
  (dimension 0 = batch rows, dimension 1 = features), enough to express the
  elementwise arithmetic (`sum`, `mean`) and dimension-1 concatenation
  (`concat`) performed by `_tensor_reduction`.
* A mask is a type-tagged tensor: `Mask.bool` for a `BoolTensor`,
  `Mask.float` for a `FloatTensor` (weights as rationals), and `Mask.other`
  for any tensor of another dtype (only its length is observable before the
  type dispatch rejects it).
* Python exceptions (`assert`, `raise ValueError`) are modelled as
  `Except Err`; the distinct error sites get distinct `Err` constructors.
* `self._cache` (a Python dict keyed by mutable keys) is an association
  list `List (String × Mask)` with `List.lookup`.
* `sample_search` / `sample_final` are abstract extension points
  (`NotImplementedError` in this class); their results are passed in as
  parameters where `reset` / `export` call them.
* Methods that live on `self` are state transformers `Mutator → α × Mutator`;
  only `reset` writes `_cache` in the source, so only `reset` produces a new
  cache.
-/

abbrev Tensor := List (List ℚ)

deriving instance DecidableEq for Except

/-- A decision mask, tagged with its torch dtype as `_select_with_mask`
dispatches on `mask.type()`. -/
inductive Mask where
  | bool (bs : List Bool)
  | float (ws : List ℚ)
  | other (n : Nat)
deriving DecidableEq, Repr

/-- Python `len(mask)`: the size of dimension 0 of the mask tensor. -/
def Mask.len : Mask → Nat
  | .bool bs => bs.length
  | .float ws => ws.length
  | .other n => n

/-- `mask.take k`: the tensor restricted to its first `k` entries. -/
def Mask.take (k : Nat) : Mask → Mask
  | .bool bs => .bool (bs.take k)
  | .float ws => .float (ws.take k)
  | .other n => .other (min k n)

/-- The error conditions raised by the source file. -/
inductive Err where
  /-- `assert len(mask) == ...` failure; carries the expected length. -/
  | invalidMask (expected : Nat)
  /-- `raise ValueError("Unrecognized mask")` in `_select_with_mask`. -/
  | unrecognizedMask
  /-- `raise ValueError("Unrecognized reduction policy: ...")`. -/
  | unrecognizedReduction (name : String)
  /-- `raise ValueError("... not found in decision cache.")`. -/
  | cacheMiss (key : String)
deriving DecidableEq, Repr

/-- `tensor * m` for a scalar float `m`: elementwise scaling. -/
def tsmul (t : Tensor) (w : ℚ) : Tensor :=
  t.map (fun row => row.map (fun x => x * w))

/-- Elementwise `a + b` of two torch tensors (equal shapes in torch;
`zipWith` restricted to the common shape here). -/
def tadd (a b : Tensor) : Tensor :=
  List.zipWith (fun ra rb => List.zipWith (· + ·) ra rb) a b

/-- Python `sum(tensor_list)` over torch tensors: starts from `0`, which is
the additive identity under torch broadcasting, so for a nonempty list it is
the fold of elementwise addition over the list. -/
def pysum : List Tensor → Tensor
  | [] => []
  | t :: ts => ts.foldl tadd t

/-- `tensor / n`: elementwise division by a scalar. -/
def tdiv (t : Tensor) (n : ℚ) : Tensor :=
  t.map (fun row => row.map (fun x => x / n))

/-- `torch.cat([a, b], dim=1)`: rows are pairwise appended (torch requires
equal dimension-0 sizes; `zipWith` restricted to the common length here). -/
def tcat (a b : Tensor) : Tensor :=
  List.zipWith (fun ra rb => ra ++ rb) a b

/-- `torch.cat(tensor_list, dim=1)` for a nonempty list. -/
def torchCat1 : List Tensor → Tensor
  | [] => []
  | t :: ts => ts.foldl tcat t

/-- `Mutator._select_with_mask(map_fn, candidates, mask)`:
* `BoolTensor` mask: `[map_fn(*cand) for cand, m in zip(candidates, mask) if m]`
* `FloatTensor` mask: `[map_fn(*cand) * m for cand, m in zip(candidates, mask) if m]`
  (a scalar float tensor is truthy iff nonzero)
* any other dtype: `raise ValueError("Unrecognized mask")`. -/
def _select_with_mask (map_fn : α → Tensor) (candidates : List α)
    (mask : Mask) : Except Err (List Tensor) :=
  match mask with
  | .bool bs =>
      .ok ((candidates.zip bs).filterMap
        (fun cm => if cm.2 then some (map_fn cm.1) else none))
  | .float ws =>
      .ok ((candidates.zip ws).filterMap
        (fun cm => if cm.2 ≠ 0 then some (tsmul (map_fn cm.1) cm.2) else none))
  | .other _ => .error .unrecognizedMask

/-- The result of `Mutator._tensor_reduction`: Python returns `None`, the
input list unchanged, or a single tensor. -/
inductive TRResult where
  | null
  | tensor (t : Tensor)
  | list (ts : List Tensor)
deriving DecidableEq, Repr

/-- `Mutator._tensor_reduction(reduction_type, tensor_list)`, with the
source's test order: `"none"` first, then the empty and singleton cases,
then `"sum"` / `"mean"` / `"concat"`, else `raise ValueError`. -/
def _tensor_reduction (reduction_type : String) (tensor_list : List Tensor) :
    Except Err TRResult :=
  if reduction_type = "none" then .ok (.list tensor_list)
  else match tensor_list with
  | [] => .ok .null
  | [t] => .ok (.tensor t)
  | _ :: _ :: _ =>
      if reduction_type = "sum" then
        .ok (.tensor (pysum tensor_list))
      else if reduction_type = "mean" then
        .ok (.tensor (tdiv (pysum tensor_list) tensor_list.length))
      else if reduction_type = "concat" then
        .ok (.tensor (torchCat1 tensor_list))
      else .error (.unrecognizedReduction reduction_type)

/-- The decision mapping produced by `sample_search` / `sample_final`:
a Python dict from mutable key to decision. -/
abbrev Decisions := List (String × Mask)

/-- The mutator's only mutable state: `self._cache`. -/
structure Mutator where
  cache : Decisions
deriving DecidableEq, Repr

/-- `Mutator.__init__`: `self._cache = dict()`. -/
def Mutator.init : Mutator := ⟨[]⟩

/-- `Mutator.reset()`: `self._cache = self.sample_search()`. The result of
the abstract `sample_search` extension point is the parameter `ss`. -/
def Mutator.reset (ss : Decisions) (_m : Mutator) : Unit × Mutator :=
  ((), ⟨ss⟩)

/-- `Mutator.export()`: `return self.sample_final()`. The result of the
abstract `sample_final` extension point is the parameter `sf`. -/
def Mutator.export (sf : Decisions) (m : Mutator) : Decisions × Mutator :=
  (sf, m)

/-- `Mutator._get_decision(mutable)`: raise a cache-miss `ValueError` when
`mutable.key` is not in `self._cache`, else return the cached decision. -/
def _get_decision (m : Mutator) (key : String) : Except Err Mask :=
  match m.cache.lookup key with
  | none => .error (.cacheMiss key)
  | some result => .ok result

/-- A `LayerChoice` mutable as consumed by this file: a key, candidate
operations (each mapping the forward inputs to an output tensor), and a
reduction policy name. `I` is the type of the forward `*inputs` tuple. -/
structure LayerChoice (I : Type) where
  key : String
  choices : List (I → Tensor)
  reduction : String

/-- An `InputChoice` mutable as consumed by this file: a key, a declared
candidate count, and a reduction policy name. -/
structure InputChoice where
  key : String
  n_candidates : Nat
  reduction : String
deriving DecidableEq, Repr

/-- `Mutator.on_forward_layer_choice(mutable, *inputs)`: look up the cached
mask, assert its length equals `len(mutable.choices)`, select with
`_map_fn(op, *inputs) = op(*inputs)` over the candidates, reduce with the
mutable's policy, and return `(reduced, mask)`. Only `reset` writes the
cache, so the state component is returned unchanged. -/
def on_forward_layer_choice (m : Mutator) (mutable : LayerChoice I)
    (inputs : I) : Except Err (TRResult × Mask) × Mutator :=
  ((_get_decision m mutable.key).bind (fun mask =>
    if mask.len = mutable.choices.length then
      (_select_with_mask (fun op => op inputs) mutable.choices mask).bind (fun out =>
        (_tensor_reduction mutable.reduction out).bind (fun red =>
          .ok (red, mask)))
    else .error (.invalidMask mutable.choices.length)), m)

/-- `Mutator.on_forward_input_choice(mutable, tensor_list)`: look up the
cached mask, assert its length equals `mutable.n_candidates`, select with
the identity map over `tensor_list`, reduce, and return `(reduced, mask)`. -/
def on_forward_input_choice (m : Mutator) (mutable : InputChoice)
    (tensor_list : List Tensor) : Except Err (TRResult × Mask) × Mutator :=
  ((_get_decision m mutable.key).bind (fun mask =>
    if mask.len = mutable.n_candidates then
      (_select_with_mask (fun x => x) tensor_list mask).bind (fun out =>
        (_tensor_reduction mutable.reduction out).bind (fun red =>
          .ok (red, mask)))
    else .error (.invalidMask mutable.n_candidates)), m)

/-! ## Specification-side selection semantics

These two definitions follow the spec's words ("the candidates at positions
where the mask is true, in the original candidate order"; "each selected
candidate's output is scaled by its mask weight; zero-weight candidates are
excluded"), written independently of the zip/filter idiom of the source, to
be compared against `_select_with_mask`. -/

/-- The candidates at positions where the boolean mask is true, in the
original candidate order. -/
def specBoolSelect : List Bool → List α → List α
  | true :: bs, x :: xs => x :: specBoolSelect bs xs
  | false :: bs, _ :: xs => specBoolSelect bs xs
  | _, _ => []

/-- The candidates with non-zero float weight, paired with their weight, in
the original candidate order. -/
def specFloatSelect : List ℚ → List α → List (α × ℚ)
  | w :: ws, x :: xs =>
      if w = 0 then specFloatSelect ws xs else (x, w) :: specFloatSelect ws xs
  | _, _ => []

lemma zip_filterMap_bool (f : α → Tensor) :
    ∀ (bs : List Bool) (cs : List α),
    List.filterMap (fun cm => if cm.2 then some (f cm.1) else none) (cs.zip bs)
      = (specBoolSelect bs cs).map f := by
  intro bs
  induction bs with
  | nil => intro cs; cases cs <;> simp [specBoolSelect]
  | cons b bs ih =>
    intro cs
    cases cs with
    | nil => simp [specBoolSelect]
    | cons c cs => cases b <;> simp [specBoolSelect, List.zip_cons_cons, ih]

lemma zip_filterMap_float (f : α → Tensor) :
    ∀ (ws : List ℚ) (cs : List α),
    List.filterMap (fun cm => if cm.2 ≠ 0 then some (tsmul (f cm.1) cm.2) else none)
        (cs.zip ws)
      = (specFloatSelect ws cs).map (fun p => tsmul (f p.1) p.2) := by
  intro ws
  induction ws with
  | nil => intro cs; cases cs <;> simp [specFloatSelect]
  | cons w ws ih =>
    intro cs
    cases cs with
    | nil => simp [specFloatSelect]
    | cons c cs =>
      have ih' := ih cs
      simp only [ne_eq, ite_not] at ih' ⊢
      by_cases hw : w = 0 <;>
        simp [specFloatSelect, List.zip_cons_cons, hw, ih']

lemma zip_take_of_min_le (l₁ : List α) (l₂ : List β) (k : Nat)
    (h : min l₁.length l₂.length ≤ k) :
    (l₁.take k).zip (l₂.take k) = l₁.zip l₂ := by
  induction l₁ generalizing l₂ k with
  | nil => simp
  | cons a as ih =>
    cases l₂ with
    | nil => simp
    | cons b bs =>
      cases k with
      | zero =>
        simp only [List.length_cons] at h
        omega
      | succ k =>
        have h' : min as.length bs.length ≤ k := by
          simp only [List.length_cons] at h
          omega
        simp only [List.take_succ_cons, List.zip_cons_cons, ih bs k h']

/-! ## Specification-side reduction semantics

Elementwise characterizations of `sum`, `mean` and `concat`, stated through
an element accessor `elem` and a shape predicate, independently of the
fold/zip implementation of the tensor operations. -/

/-- Element `(i, j)` of a 2-D tensor, with default `0` out of bounds. -/
def elem (t : Tensor) (i j : Nat) : ℚ := (t.getD i []).getD j 0

/-- `t` has `r` rows, each of `c` features. -/
def Shape (r c : Nat) (t : Tensor) : Prop :=
  t.length = r ∧ ∀ i < r, (t.getD i []).length = c

instance (r c : Nat) (t : Tensor) : Decidable (Shape r c t) := by
  unfold Shape; infer_instance

lemma getD_zipWith {α β γ : Type} {f : α → β → γ} :
    ∀ {l₁ : List α} {l₂ : List β} {i : Nat} (d₁ : α) (d₂ : β) (d₃ : γ),
    i < l₁.length → i < l₂.length →
    (List.zipWith f l₁ l₂).getD i d₃ = f (l₁.getD i d₁) (l₂.getD i d₂) := by
  intro l₁
  induction l₁ with
  | nil => intro l₂ i _ _ _ h₁ _; simp at h₁
  | cons a as ih =>
    intro l₂ i d₁ d₂ d₃ h₁ h₂
    cases l₂ with
    | nil => simp at h₂
    | cons b bs =>
      cases i with
      | zero => simp [List.getD]
      | succ i =>
        simp only [List.zipWith_cons_cons, List.getD_cons_succ]
        exact ih d₁ d₂ d₃ (by simpa using h₁) (by simpa using h₂)

lemma getD_map {α β : Type} {f : α → β} :
    ∀ {l : List α} {i : Nat} (d₁ : α) (d₂ : β), i < l.length →
    (l.map f).getD i d₂ = f (l.getD i d₁) := by
  intro l
  induction l with
  | nil => intro i _ _ h; simp at h
  | cons a as ih =>
    intro i d₁ d₂ h
    cases i with
    | zero => simp [List.getD]
    | succ i =>
      simp only [List.map_cons, List.getD_cons_succ]
      exact ih d₁ d₂ (by simpa using h)

lemma shape_tadd {r c : Nat} {a b : Tensor} (ha : Shape r c a)
    (hb : Shape r c b) : Shape r c (tadd a b) := by
  refine ⟨by simp [tadd, ha.1, hb.1], ?_⟩
  intro i hi
  rw [tadd, getD_zipWith [] [] [] (ha.1 ▸ hi) (hb.1 ▸ hi),
    List.length_zipWith, ha.2 i hi, hb.2 i hi, min_self]

lemma elem_tadd {r c : Nat} {a b : Tensor} (ha : Shape r c a)
    (hb : Shape r c b) {i j : Nat} (hi : i < r) (hj : j < c) :
    elem (tadd a b) i j = elem a i j + elem b i j := by
  unfold elem tadd
  rw [getD_zipWith [] [] [] (ha.1 ▸ hi) (hb.1 ▸ hi),
    getD_zipWith 0 0 0 ((ha.2 i hi) ▸ hj) ((hb.2 i hi) ▸ hj)]

lemma shape_foldl_tadd {r c : Nat} :
    ∀ (ts : List Tensor) (a : Tensor), Shape r c a → (∀ t ∈ ts, Shape r c t) →
    Shape r c (ts.foldl tadd a) := by
  intro ts
  induction ts with
  | nil => intro a ha _; exact ha
  | cons t ts ih =>
    intro a ha hts
    exact ih (tadd a t) (shape_tadd ha (hts t (by simp)))
      (fun u hu => hts u (by simp [hu]))

lemma elem_foldl_tadd {r c i j : Nat} (hi : i < r) (hj : j < c) :
    ∀ (ts : List Tensor) (a : Tensor), Shape r c a → (∀ t ∈ ts, Shape r c t) →
    elem (ts.foldl tadd a) i j = elem a i j + (ts.map (fun t => elem t i j)).sum := by
  intro ts
  induction ts with
  | nil => intro a _ _; simp
  | cons t ts ih =>
    intro a ha hts
    have ht : Shape r c t := hts t (by simp)
    have hts' : ∀ u ∈ ts, Shape r c u := fun u hu => hts u (by simp [hu])
    simp only [List.foldl_cons, List.map_cons, List.sum_cons]
    rw [ih (tadd a t) (shape_tadd ha ht) hts', elem_tadd ha ht hi hj]
    ring

lemma shape_pysum {r c : Nat} {ts : List Tensor} (hne : ts ≠ [])
    (hts : ∀ t ∈ ts, Shape r c t) : Shape r c (pysum ts) := by
  cases ts with
  | nil => exact absurd rfl hne
  | cons t ts =>
    exact shape_foldl_tadd ts t (hts t (by simp)) (fun u hu => hts u (by simp [hu]))

lemma elem_pysum {r c i j : Nat} {ts : List Tensor} (hne : ts ≠ [])
    (hts : ∀ t ∈ ts, Shape r c t) (hi : i < r) (hj : j < c) :
    elem (pysum ts) i j = (ts.map (fun t => elem t i j)).sum := by
  cases ts with
  | nil => exact absurd rfl hne
  | cons t ts =>
    simp only [pysum, List.map_cons, List.sum_cons]
    rw [elem_foldl_tadd hi hj ts t (hts t (by simp)) (fun u hu => hts u (by simp [hu]))]

lemma elem_tdiv {r c : Nat} {t : Tensor} (ht : Shape r c t) {i j : Nat}
    (hi : i < r) (hj : j < c) (n : ℚ) :
    elem (tdiv t n) i j = elem t i j / n := by
  unfold elem tdiv
  rw [getD_map [] [] (ht.1 ▸ hi), getD_map 0 0 ((ht.2 i hi) ▸ hj)]

lemma length_tcat_foldl {r : Nat} :
    ∀ (ts : List Tensor) (a : Tensor), a.length = r → (∀ t ∈ ts, t.length = r) →
    (ts.foldl tcat a).length = r := by
  intro ts
  induction ts with
  | nil => intro a ha _; exact ha
  | cons t ts ih =>
    intro a ha hts
    exact ih (tcat a t)
      (by simp [tcat, ha, hts t (by simp)])
      (fun u hu => hts u (by simp [hu]))

lemma row_tcat_foldl {r i : Nat} (hi : i < r) :
    ∀ (ts : List Tensor) (a : Tensor), a.length = r → (∀ t ∈ ts, t.length = r) →
    (ts.foldl tcat a).getD i [] = a.getD i [] ++ (ts.map (fun t => t.getD i [])).flatten := by
  intro ts
  induction ts with
  | nil => intro a _ _; simp
  | cons t ts ih =>
    intro a ha hts
    have ht : t.length = r := hts t (by simp)
    have hts' : ∀ u ∈ ts, u.length = r := fun u hu => hts u (by simp [hu])
    simp only [List.foldl_cons, List.map_cons, List.flatten_cons]
    rw [ih (tcat a t) (by simp [tcat, ha, ht]) hts']
    rw [tcat, getD_zipWith [] [] [] (ha ▸ hi) (ht ▸ hi), List.append_assoc]

lemma row_torchCat1 {r i : Nat} (hi : i < r) {ts : List Tensor} (hne : ts ≠ [])
    (hts : ∀ t ∈ ts, t.length = r) :
    (torchCat1 ts).getD i [] = (ts.map (fun t => t.getD i [])).flatten := by
  cases ts with
  | nil => exact absurd rfl hne
  | cons t ts =>
    simp only [torchCat1, List.map_cons, List.flatten_cons]
    rw [row_tcat_foldl hi ts t (hts t (by simp)) (fun u hu => hts u (by simp [hu]))]

/-! ## Claim theorems: `_select_with_mask` (C1, C2, C8, C10) -/

/-- C1: for a boolean-typed mask and a candidate list of the same length,
`_select_with_mask` returns exactly `map_fn` applied to the candidates at
true-mask positions, in the original candidate order; moreover the result
depends on `map_fn` only through its values on those selected candidates,
so `map_fn` is not applied to any candidate whose mask entry is false. -/
theorem C1_select_bool_mask (f : α → Tensor) (cands : List α) (bs : List Bool)
    (hlen : bs.length = cands.length) :
    _select_with_mask f cands (.bool bs) = .ok ((specBoolSelect bs cands).map f)
    ∧ ∀ g : α → Tensor, (∀ x ∈ specBoolSelect bs cands, f x = g x) →
      _select_with_mask f cands (.bool bs) = _select_with_mask g cands (.bool bs) := by
  constructor
  · simp only [_select_with_mask]
    rw [zip_filterMap_bool]
  · intro g hg
    simp only [_select_with_mask]
    rw [zip_filterMap_bool, zip_filterMap_bool]
    exact congrArg Except.ok (List.map_congr_left hg)

/-- Witness for C1 at mask `[true, false, true]` over three candidates. -/
theorem C1_select_bool_mask_witness :
    ([true, false, true] : List Bool).length
        = ([[[1]], [[2]], [[3]]] : List Tensor).length
    ∧ _select_with_mask (fun x => x) ([[[1]], [[2]], [[3]]] : List Tensor)
        (.bool [true, false, true])
      = .ok ((specBoolSelect [true, false, true]
          ([[[1]], [[2]], [[3]]] : List Tensor)).map (fun x => x)) :=
  ⟨by decide,
   (C1_select_bool_mask (fun x => x) [[[1]], [[2]], [[3]]] [true, false, true]
     (by decide)).1⟩

/-- C2: for a float-typed mask and a candidate list of the same length,
`_select_with_mask` returns, in the original order, the output of each
candidate with non-zero weight scaled by that weight; zero-weight candidates
are excluded, and the result depends on `map_fn` only through its values on
the non-zero-weight candidates, so `map_fn` is not applied to the others. -/
theorem C2_select_float_mask (f : α → Tensor) (cands : List α) (ws : List ℚ)
    (hlen : ws.length = cands.length) :
    _select_with_mask f cands (.float ws)
        = .ok ((specFloatSelect ws cands).map (fun p => tsmul (f p.1) p.2))
    ∧ ∀ g : α → Tensor, (∀ p ∈ specFloatSelect ws cands, f p.1 = g p.1) →
      _select_with_mask f cands (.float ws) = _select_with_mask g cands (.float ws) := by
  constructor
  · simp only [_select_with_mask]
    rw [zip_filterMap_float]
  · intro g hg
    simp only [_select_with_mask]
    rw [zip_filterMap_float, zip_filterMap_float]
    refine congrArg Except.ok (List.map_congr_left ?_)
    intro p hp
    rw [hg p hp]

/-- Witness for C2 at mask `[0, 5]` over two candidates: the zero-weight
candidate is dropped and the other is scaled by `5`. -/
theorem C2_select_float_mask_witness :
    ([0, 5] : List ℚ).length = ([[[2]], [[3]]] : List Tensor).length
    ∧ _select_with_mask (fun x => x) ([[[2]], [[3]]] : List Tensor) (.float [0, 5])
        = .ok [[[15]]] := by
  refine ⟨by decide, ?_⟩
  have h := (C2_select_float_mask (fun x => x) ([[[2]], [[3]]] : List Tensor)
    [0, 5] (by decide)).1
  rw [h]
  simp [specFloatSelect, tsmul]
  norm_num

/-- C8: a mask of any dtype other than bool or float is rejected with the
unrecognized-mask error, whatever the candidate list. -/
theorem C8_unrecognized_mask_error (f : α → Tensor) (cands : List α) (n : Nat) :
    _select_with_mask f cands (.other n) = .error .unrecognizedMask := rfl

/-- C10: `_select_with_mask` performs no length validation: on a recognized
(bool or float) mask it never raises, and its result only depends on the
first `min (len mask) (len candidates)` mask/candidate pairs. -/
theorem C10_select_no_length_validation (f : α → Tensor) (cands : List α)
    (mask : Mask)
    (hrec : (∃ bs, mask = Mask.bool bs) ∨ (∃ ws, mask = Mask.float ws)) :
    (∃ out, _select_with_mask f cands mask = .ok out)
    ∧ _select_with_mask f cands mask
        = _select_with_mask f (cands.take (min mask.len cands.length))
            (mask.take (min mask.len cands.length)) := by
  rcases hrec with ⟨bs, rfl⟩ | ⟨ws, rfl⟩
  · refine ⟨⟨_, rfl⟩, ?_⟩
    simp only [_select_with_mask, Mask.take, Mask.len]
    rw [zip_take_of_min_le cands bs _ (by omega)]
  · refine ⟨⟨_, rfl⟩, ?_⟩
    simp only [_select_with_mask, Mask.take, Mask.len]
    rw [zip_take_of_min_le cands ws _ (by omega)]

/-- Witness for C10: a length-1 bool mask against three candidates raises no
error and behaves as if the candidate list were truncated to length 1. -/
theorem C10_select_no_length_validation_witness :
    ((∃ bs, Mask.bool [true] = Mask.bool bs) ∨ (∃ ws, Mask.bool [true] = Mask.float ws))
    ∧ (∃ out, _select_with_mask (fun x => x) ([[[1]], [[2]], [[3]]] : List Tensor)
        (.bool [true]) = .ok out)
    ∧ _select_with_mask (fun x => x) ([[[1]], [[2]], [[3]]] : List Tensor) (.bool [true])
        = _select_with_mask (fun x => x)
            (([[[1]], [[2]], [[3]]] : List Tensor).take
              (min (Mask.bool [true]).len ([[[1]], [[2]], [[3]]] : List Tensor).length))
            ((Mask.bool [true]).take
              (min (Mask.bool [true]).len ([[[1]], [[2]], [[3]]] : List Tensor).length)) := by
  have h := C10_select_no_length_validation (fun x => x)
    ([[[1]], [[2]], [[3]]] : List Tensor) (.bool [true]) (.inl ⟨[true], rfl⟩)
  exact ⟨.inl ⟨[true], rfl⟩, h.1, h.2⟩

/-! ## Claim theorems: `_tensor_reduction` (C3, C4, C5) -/

/-- C3 counterexample: the `"none"` test comes first in `_tensor_reduction`,
so with policy `"none"` an empty list is returned unchanged (not the `None`
sentinel) and a singleton is returned as a one-element list (not unwrapped),
refuting the claim's "for every reduction policy name". -/
theorem C3_counterexample :
    _tensor_reduction "none" [] = .ok (.list [])
    ∧ _tensor_reduction "none" [] ≠ .ok .null
    ∧ _tensor_reduction "none" [[[7]]] = .ok (.list [[[7]]])
    ∧ _tensor_reduction "none" [[[7]]] ≠ .ok (.tensor [[7]]) := by decide

/-- C3 (amended): for every reduction policy name other than `"none"`,
`_tensor_reduction` returns the `None` sentinel on an empty surviving list
and returns the single element directly, unreduced, on a singleton. -/
theorem C3_reduction_empty_singleton (rt : String) (hrt : rt ≠ "none")
    (t : Tensor) :
    _tensor_reduction rt [] = .ok .null
    ∧ _tensor_reduction rt [t] = .ok (.tensor t) := by
  constructor <;> simp [_tensor_reduction, hrt]

/-- Witness for the amended C3 at policy `"sum"`. -/
theorem C3_reduction_empty_singleton_witness :
    ("sum" : String) ≠ "none"
    ∧ _tensor_reduction "sum" [] = .ok .null
    ∧ _tensor_reduction "sum" [[[7]]] = .ok (.tensor [[7]]) := by
  have h := C3_reduction_empty_singleton "sum" (by decide) [[7]]
  exact ⟨by decide, h.1, h.2⟩

/-- C4: on a surviving list of two or more outputs of a common `r × c`
shape, `"sum"` returns the elementwise sum, `"mean"` the elementwise sum
divided by the number of elements, `"concat"` the concatenation of each row
along dimension 1, and `"none"` the list unchanged. -/
theorem C4_reduction_policies (ts : List Tensor) (r c : Nat)
    (h2 : 2 ≤ ts.length) (hsh : ∀ t ∈ ts, Shape r c t) :
    (∃ s, _tensor_reduction "sum" ts = .ok (.tensor s)
        ∧ ∀ i < r, ∀ j < c, elem s i j = (ts.map (fun t => elem t i j)).sum)
    ∧ (∃ mt, _tensor_reduction "mean" ts = .ok (.tensor mt)
        ∧ ∀ i < r, ∀ j < c,
          elem mt i j = (ts.map (fun t => elem t i j)).sum / (ts.length : ℚ))
    ∧ (∃ ct, _tensor_reduction "concat" ts = .ok (.tensor ct)
        ∧ ∀ i < r, ct.getD i [] = (ts.map (fun t => t.getD i [])).flatten)
    ∧ _tensor_reduction "none" ts = .ok (.list ts) := by
  obtain ⟨t1, t2, rest, rfl⟩ : ∃ t1 t2 rest, ts = t1 :: t2 :: rest := by
    match ts, h2 with
    | t1 :: t2 :: rest, _ => exact ⟨t1, t2, rest, rfl⟩
  have hne : (t1 :: t2 :: rest) ≠ [] := by simp
  refine ⟨⟨pysum (t1 :: t2 :: rest), by simp [_tensor_reduction], ?_⟩,
    ⟨tdiv (pysum (t1 :: t2 :: rest)) (t1 :: t2 :: rest).length,
      by simp [_tensor_reduction], ?_⟩,
    ⟨torchCat1 (t1 :: t2 :: rest), by simp [_tensor_reduction], ?_⟩,
    by simp [_tensor_reduction]⟩
  · intro i hi j hj
    exact elem_pysum hne hsh hi hj
  · intro i hi j hj
    rw [elem_tdiv (shape_pysum hne hsh) hi hj, elem_pysum hne hsh hi hj]
  · intro i hi
    exact row_torchCat1 hi hne (fun t ht => (hsh t ht).1)

/-- Witness for C4 on two `1 × 2` tensors. -/
theorem C4_reduction_policies_witness :
    2 ≤ ([[[1, 2]], [[3, 4]]] : List Tensor).length
    ∧ (∀ t ∈ ([[[1, 2]], [[3, 4]]] : List Tensor), Shape 1 2 t)
    ∧ _tensor_reduction "none" [[[1, 2]], [[3, 4]]]
        = .ok (.list [[[1, 2]], [[3, 4]]]) :=
  ⟨by decide, by decide,
   (C4_reduction_policies [[[1, 2]], [[3, 4]]] 1 2 (by decide) (by decide)).2.2.2⟩

/-- C5 counterexample: with an unrecognized policy name, an empty surviving
list does not raise — the empty-list test precedes the policy dispatch and
returns the `None` sentinel — refuting "for every surviving output list". -/
theorem C5_counterexample :
    _tensor_reduction "foo" [] = .ok .null
    ∧ _tensor_reduction "foo" [] ≠ .error (.unrecognizedReduction "foo")
    ∧ _tensor_reduction "foo" [[[7]]] = .ok (.tensor [[7]]) := by decide

/-- C5 (amended): for every policy name not among `"none"`, `"sum"`,
`"mean"`, `"concat"`, `_tensor_reduction` fails with the
unrecognized-reduction-policy error on every surviving list of two or more
outputs (shorter lists are returned by the earlier empty/singleton cases). -/
theorem C5_reduction_unrecognized_policy (rt : String)
    (hrt : rt ∉ (["none", "sum", "mean", "concat"] : List String))
    (ts : List Tensor) (h2 : 2 ≤ ts.length) :
    _tensor_reduction rt ts = .error (.unrecognizedReduction rt) := by
  simp only [List.mem_cons, List.not_mem_nil, or_false, not_or] at hrt
  obtain ⟨h1, h2', h3, h4⟩ := hrt
  match ts, h2 with
  | t1 :: t2 :: rest, _ =>
    simp [_tensor_reduction, h1, h2', h3, h4]

/-- Witness for the amended C5 at policy `"foo"` on a two-element list. -/
theorem C5_reduction_unrecognized_policy_witness :
    ("foo" : String) ∉ (["none", "sum", "mean", "concat"] : List String)
    ∧ 2 ≤ ([[[1]], [[2]]] : List Tensor).length
    ∧ _tensor_reduction "foo" [[[1]], [[2]]]
        = .error (.unrecognizedReduction "foo") :=
  ⟨by decide, by decide,
   C5_reduction_unrecognized_policy "foo" (by decide) [[[1]], [[2]]] (by decide)⟩

/-! ## Claim theorems: decision cache and forward callbacks (C6, C7, C9) -/

/-- C6: after `reset` stores the sampled mapping, `_get_decision` succeeds
for every key present in that mapping; the forward callbacks raise the
cache-miss error for an absent key; and before any `reset` (cache still the
empty dict from construction) every forward callback raises the cache-miss
error. -/
theorem C6_cache_hit_and_miss {I : Type} (ss : Decisions) (m : Mutator) :
    (∀ key mask, ss.lookup key = some mask →
      _get_decision (Mutator.reset ss m).2 key = .ok mask)
    ∧ (∀ (lc : LayerChoice I) (inputs : I), ss.lookup lc.key = none →
      (on_forward_layer_choice (Mutator.reset ss m).2 lc inputs).1
        = .error (.cacheMiss lc.key))
    ∧ (∀ (ic : InputChoice) (tl : List Tensor), ss.lookup ic.key = none →
      (on_forward_input_choice (Mutator.reset ss m).2 ic tl).1
        = .error (.cacheMiss ic.key))
    ∧ (∀ (lc : LayerChoice I) (inputs : I),
      (on_forward_layer_choice Mutator.init lc inputs).1
        = .error (.cacheMiss lc.key))
    ∧ (∀ (ic : InputChoice) (tl : List Tensor),
      (on_forward_input_choice Mutator.init ic tl).1
        = .error (.cacheMiss ic.key)) := by
  refine ⟨?_, ?_, ?_, ?_, ?_⟩
  · intro key mask h
    simp [_get_decision, Mutator.reset, h]
  · intro lc inputs h
    simp [on_forward_layer_choice, _get_decision, Mutator.reset, h, Except.bind]
  · intro ic tl h
    simp [on_forward_input_choice, _get_decision, Mutator.reset, h, Except.bind]
  · intro lc inputs
    simp [on_forward_layer_choice, _get_decision, Mutator.init, Except.bind]
  · intro ic tl
    simp [on_forward_input_choice, _get_decision, Mutator.init, Except.bind]

/-- Witness for C6: a present key is retrieved after `reset`; an absent key
and the freshly constructed mutator both raise the cache-miss error. -/
theorem C6_cache_hit_and_miss_witness :
    ([("a", Mask.bool [true])] : Decisions).lookup "a" = some (Mask.bool [true])
    ∧ _get_decision (Mutator.reset [("a", Mask.bool [true])] Mutator.init).2 "a"
        = .ok (.bool [true])
    ∧ ([("a", Mask.bool [true])] : Decisions).lookup "b" = none
    ∧ (on_forward_layer_choice (Mutator.reset [("a", Mask.bool [true])] Mutator.init).2
        (⟨"b", [], "sum"⟩ : LayerChoice Unit) ()).1 = .error (.cacheMiss "b")
    ∧ (on_forward_layer_choice Mutator.init
        (⟨"a", [], "sum"⟩ : LayerChoice Unit) ()).1 = .error (.cacheMiss "a") := by
  have h := C6_cache_hit_and_miss (I := Unit) [("a", Mask.bool [true])] Mutator.init
  exact ⟨by decide, h.1 "a" (.bool [true]) (by decide), by decide,
    h.2.1 ⟨"b", [], "sum"⟩ () (by decide), h.2.2.2.1 ⟨"a", [], "sum"⟩ ()⟩

/-- C7: when the cached mask's length differs from the candidate count
(`len(mutable.choices)` for a layer choice, `mutable.n_candidates` for an
input choice) the callback fails with the mask-length assertion error; when
the lengths agree it proceeds to selection and reduction. -/
theorem C7_mask_length_assertion {I : Type} (m : Mutator) (lc : LayerChoice I)
    (inputs : I) (ic : InputChoice) (tl : List Tensor) (mask mask' : Mask)
    (hget : _get_decision m lc.key = .ok mask)
    (hget' : _get_decision m ic.key = .ok mask') :
    ((mask.len ≠ lc.choices.length →
      (on_forward_layer_choice m lc inputs).1
        = .error (.invalidMask lc.choices.length))
    ∧ (mask.len = lc.choices.length →
      (on_forward_layer_choice m lc inputs).1
        = (_select_with_mask (fun op => op inputs) lc.choices mask).bind
            (fun out => (_tensor_reduction lc.reduction out).map
              (fun red => (red, mask)))))
    ∧ ((mask'.len ≠ ic.n_candidates →
      (on_forward_input_choice m ic tl).1
        = .error (.invalidMask ic.n_candidates))
    ∧ (mask'.len = ic.n_candidates →
      (on_forward_input_choice m ic tl).1
        = (_select_with_mask (fun x => x) tl mask').bind
            (fun out => (_tensor_reduction ic.reduction out).map
              (fun red => (red, mask'))))) := by
  refine ⟨⟨?_, ?_⟩, ⟨?_, ?_⟩⟩
  · intro hne
    simp [on_forward_layer_choice, hget, Except.bind, hne]
  · intro heq
    simp only [on_forward_layer_choice, hget, Except.bind]
    rw [if_pos heq]
    congr 1
  · intro hne
    simp [on_forward_input_choice, hget', Except.bind, hne]
  · intro heq
    simp only [on_forward_input_choice, hget', Except.bind]
    rw [if_pos heq]
    congr 1

/-- Witness for C7: a length-1 mask fails the assertion against an empty
choice list and passes it against `n_candidates = 1`, where the callback
then selects and reduces. -/
theorem C7_mask_length_assertion_witness :
    _get_decision (⟨[("a", Mask.bool [true])]⟩ : Mutator) "a" = .ok (.bool [true])
    ∧ (on_forward_layer_choice (⟨[("a", Mask.bool [true])]⟩ : Mutator)
        (⟨"a", [], "sum"⟩ : LayerChoice Unit) ()).1 = .error (.invalidMask 0)
    ∧ (on_forward_input_choice (⟨[("a", Mask.bool [true])]⟩ : Mutator)
        (⟨"a", 1, "sum"⟩ : InputChoice) [[[5]]]).1
        = .ok (.tensor [[5]], .bool [true]) := by
  have h := C7_mask_length_assertion (⟨[("a", Mask.bool [true])]⟩ : Mutator)
    (⟨"a", [], "sum"⟩ : LayerChoice Unit) () (⟨"a", 1, "sum"⟩ : InputChoice)
    [[[5]]] (.bool [true]) (.bool [true]) (by decide) (by decide)
  refine ⟨by decide, h.1.1 (by decide), ?_⟩
  rw [h.2.2 (by decide)]
  decide

/-- C9: the decision cache is written only by `reset` (wholesale, to the
result of `sample_search`); `export` returns the result of `sample_final`
without reading or altering the cache, and the forward callbacks leave the
mutator state unchanged. -/
theorem C9_cache_frame {I : Type} (ss sf : Decisions) (m : Mutator)
    (lc : LayerChoice I) (inputs : I) (ic : InputChoice) (tl : List Tensor) :
    ((Mutator.reset ss m).2).cache = ss
    ∧ (Mutator.export sf m).1 = sf
    ∧ (Mutator.export sf m).2 = m
    ∧ (∀ m' : Mutator, (Mutator.export sf m').1 = (Mutator.export sf m).1)
    ∧ (on_forward_layer_choice m lc inputs).2 = m
    ∧ (on_forward_input_choice m ic tl).2 = m :=
  ⟨rfl, rfl, rfl, fun _ => rfl, rfl, rfl⟩
